import Mathlib

/-!
Verification development for the SE Onboarding Lab chat server
(`src/server/index.ts`, class `SeOnboardingChat`).

The server-side chat logic is shallowly embedded: connections are natural
numbers, the transport open-state and the fallible external backends
(Workers AI, the MCP documentation-search exchange, `crypto` randomness)
are passed in as explicit oracles, and every method of the class becomes a
pure function from the room state and the oracles to the new room state
plus the list of performed sends.  `Except String` models a thrown
JavaScript error carrying `error.message`.
-/

namespace SeOnboarding

/-- A WebSocket connection handle. -/
abbrev Conn := Nat

/-- Embedding of the `ChatMessage` type of `src/shared.ts`.  The TypeScript
declaration restricts `role` to `"user" | "assistant"`, but inbound values
are produced by an unchecked cast from `JSON.parse`, so at runtime the role
is an arbitrary string; the embedding therefore uses `String`. -/
structure ChatMessage where
  id : String
  content : String
  user : String
  role : String
deriving DecidableEq, Repr

/-- Embedding of the wire-level `Message` union of `src/shared.ts` (the
Domain Events).  `model` is the optional model selector and `useMCP` the
retrieval-augmentation flag (absent on the wire is embedded as `false`,
matching the source's truthiness test `if (parsed.useMCP)`). -/
inductive Message where
  | add (id content user role : String) (model : Option String) (useMCP : Bool)
  | update (id content user role : String) (model : Option String) (useMCP : Bool)
  | all (messages : List ChatMessage)
  | session_loading
  | session_ready (sessionId : String)
  | session_failed (error : String)
deriving DecidableEq, Repr

/-- Escapes one character for the JSON rendering (quote and backslash only;
the payloads in this development contain no control characters). -/
def escChar (c : Char) : String :=
  if c = '"' then "\\\"" else if c = '\\' then "\\\\" else String.singleton c

/-- Escapes a string for the JSON rendering. -/
def escapeStr (s : String) : String :=
  String.join (s.data.map escChar)

/-- Wraps a string in JSON quotes. -/
def jstr (s : String) : String :=
  "\"" ++ escapeStr s ++ "\""

/-- Canonical rendering of a `ChatMessage`, standing for `JSON.stringify`. -/
def serializeChatMessage (m : ChatMessage) : String :=
  "\x7b" ++ jstr "id" ++ ":" ++ jstr m.id ++ "," ++ jstr "content" ++ ":" ++ jstr m.content ++
    "," ++ jstr "user" ++ ":" ++ jstr m.user ++ "," ++ jstr "role" ++ ":" ++ jstr m.role ++ "\x7d"

/-- Canonical injective rendering of a Domain Event, standing for the
`JSON.stringify(message)` performed once per broadcast. -/
def serializeMessage : Message → String
  | .add id content user role model useMCP =>
      "\x7b" ++ jstr "type" ++ ":" ++ jstr "add" ++ "," ++
        serializeChatMessage ⟨id, content, user, role⟩ ++ "," ++
        jstr "model" ++ ":" ++ (match model with | some m => jstr m | none => "null") ++ "," ++
        jstr "useMCP" ++ ":" ++ (if useMCP then "true" else "false") ++ "\x7d"
  | .update id content user role model useMCP =>
      "\x7b" ++ jstr "type" ++ ":" ++ jstr "update" ++ "," ++
        serializeChatMessage ⟨id, content, user, role⟩ ++ "," ++
        jstr "model" ++ ":" ++ (match model with | some m => jstr m | none => "null") ++ "," ++
        jstr "useMCP" ++ ":" ++ (if useMCP then "true" else "false") ++ "\x7d"
  | .all messages =>
      "\x7b" ++ jstr "type" ++ ":" ++ jstr "all" ++ "," ++ jstr "messages" ++ ":[" ++
        String.intercalate "," (messages.map serializeChatMessage) ++ "]\x7d"
  | .session_loading =>
      "\x7b" ++ jstr "type" ++ ":" ++ jstr "session_loading" ++ "\x7d"
  | .session_ready sessionId =>
      "\x7b" ++ jstr "type" ++ ":" ++ jstr "session_ready" ++ "," ++
        jstr "sessionId" ++ ":" ++ jstr sessionId ++ "\x7d"
  | .session_failed err =>
      "\x7b" ++ jstr "type" ++ ":" ++ jstr "session_failed" ++ "," ++
        jstr "error" ++ ":" ++ jstr err ++ "\x7d"

/-- State of one room (one `SeOnboardingChat` Durable Object): the Message
Log `messages`, the retrieval session token `mcpSessionId`, and the
Connection Registry `sessions` (the `Map<WebSocket, string>` in insertion
order, as JavaScript `Map` iteration is insertion-ordered). -/
structure RoomState where
  messages : List ChatMessage
  mcpSessionId : Option String
  sessions : List (Conn × String)
deriving DecidableEq, Repr

/-- JavaScript truthiness of the nullable `this.mcpSessionId` string:
`null` and the empty string are falsy. -/
def truthy : Option String → Bool
  | none => false
  | some s => !(s == "")

/-- Embedding of `broadcastMessage(message, sender?)`.  The body serializes
the event once and sends it to every registered connection whose
`readyState` is open (`openQ`); the `sender` parameter mirrors the source's
second parameter, which the body never reads.  Returns the list of
`(connection, payload)` deliveries performed. -/
def broadcastMessage (openQ : Conn → Bool) (sessions : List (Conn × String))
    (message : Message) (sender : Option Conn) : List (Conn × String) :=
  let messageStr := serializeMessage message
  (sessions.filter (fun p => openQ p.1)).map (fun p => (p.1, messageStr))

/-- Iteration of the broadcast loop when `ws.send` itself can throw
(`sendOk c = false` models a send to `c` throwing).  Returns the deliveries
performed before any failure, and the error escaping the loop, if any; the
source wraps no `try`/`catch` around `ws.send`, so a throwing send ends the
iteration. -/
def sendLoop (openQ sendOk : Conn → Bool) (payload : String) :
    List (Conn × String) → List (Conn × String) × Option String
  | [] => ([], none)
  | p :: rest =>
    if openQ p.1 then
      if sendOk p.1 then
        let r := sendLoop openQ sendOk payload rest
        ((p.1, payload) :: r.1, r.2)
      else ([], some "send failed")
    else sendLoop openQ sendOk payload rest

/-- Embedding of `broadcastMessage` with a fallible transport `send`:
serializes once and runs the uncaught send loop. -/
def broadcastMessageF (openQ sendOk : Conn → Bool) (sessions : List (Conn × String))
    (message : Message) : List (Conn × String) × Option String :=
  sendLoop openQ sendOk (serializeMessage message) sessions

/-- Embedding of `saveMessage(message)`: if a message with the same `id` is
found, every entry with that `id` is replaced in place by `message`
(`this.messages.map`), otherwise `message` is appended (`push`). -/
def saveMessage (messages : List ChatMessage) (message : ChatMessage) : List ChatMessage :=
  match messages.find? (fun m => m.id == message.id) with
  | some _ => messages.map (fun m => if m.id == message.id then message else m)
  | none => messages ++ [message]

/-- Lowercase hexadecimal digit for `n < 16`, as produced by JavaScript
`Number.prototype.toString(16)`. -/
def hexDigitChar (n : Nat) : Char :=
  if n < 10 then Char.ofNat (48 + n) else Char.ofNat (87 + n)

/-- Two-digit lowercase hex rendering of one `Uint8Array` entry, i.e.
`byte.toString(16).padStart(2, '0')` (entries are reduced mod 256 by the
typed array itself). -/
def toHexByte (b : Nat) : List Char :=
  [hexDigitChar (b % 256 / 16), hexDigitChar (b % 16)]

/-- Session-token generation of `initializeMCPSession`: hex-encode the 32
random bytes, join, and take `substring(0, 16)`. -/
def genSessionId (bytes : List Nat) : String :=
  String.mk (((bytes.map toHexByte).flatten).take 16)

/-- Embedding of `initializeMCPSession()`.  `gen` models
`crypto.getRandomValues` (`Except.error` if the runtime call throws, which
the source's `catch` turns into a `session_failed` broadcast).  Returns the
new `mcpSessionId` (`none` on failure) and the broadcast calls performed,
as the ordered list of events handed to `broadcastMessage`. -/
def initializeMCPSession (gen : Except String (List Nat)) : Option String × List Message :=
  match gen with
  | .ok bytes =>
    let sessionId := genSessionId bytes
    (some sessionId, [.session_loading, .session_ready sessionId])
  | .error e => (none, [.session_loading, .session_failed e])

/-- The `if (!this.mcpSessionId) await this.initializeMCPSession()` step
shared by `handleSession` and `handleMCPRequest`: when the current token is
falsy, run initialization; on its failure the stored token is unchanged.
Returns the resulting token and the initialization broadcast events. -/
def ensureSession (gen : Except String (List Nat)) (mcpSessionId : Option String) :
    Option String × List Message :=
  if truthy mcpSessionId then (mcpSessionId, [])
  else
    match initializeMCPSession gen with
    | (some s, evs) => (some s, evs)
    | (none, evs) => (mcpSessionId, evs)

/-- Embedding of `handleSession(webSocket)` up to installing the listeners:
register the connection with its fresh token, send the `all` snapshot to
that connection, initialize the session if the token is falsy, then send
that connection the current session status.  Returns the new room state and
the ordered `(connection, payload)` deliveries. -/
def handleSession (openQ : Conn → Bool) (st : RoomState) (webSocket : Conn)
    (token : String) (gen : Except String (List Nat)) :
    RoomState × List (Conn × String) :=
  let sessions1 := st.sessions ++ [(webSocket, token)]
  let out1 := [(webSocket, serializeMessage (.all st.messages))]
  let ensured := if truthy st.mcpSessionId then (st.mcpSessionId, ([] : List Message))
    else ensureSession gen st.mcpSessionId
  let sid := ensured.1
  let initOuts := ensured.2.flatMap (fun e => broadcastMessage openQ sessions1 e none)
  let out2 :=
    if truthy sid then
      [(webSocket, serializeMessage (.session_ready (sid.getD "")))]
    else
      [(webSocket, serializeMessage .session_loading)]
  (⟨st.messages, sid, sessions1⟩, out1 ++ initOuts ++ out2)

/-- The default model selector of `handleMessage`. -/
def defaultModel : String := "@cf/meta/llama-4-scout-17b-16e-instruct"

/-- The system-context preamble built by `handleMCPRequest` for the
synthesis call; the retrieved text is truncated to `substring(0, 8000)`. -/
def synthSystem (searchResults : String) : String :=
  "You are CF Helper, a Cloudflare expert assistant. Use the following Cloudflare documentation to answer the user\x27s question comprehensively. Always cite specific sections when relevant.\n\nCloudflare Documentation:\n"
    ++ searchResults.take 8000

/-- Fixed reply used when the synthesis call returns no usable text. -/
def mcpDefaultSynthReply : String :=
  "I found some relevant Cloudflare documentation but couldn\x27t process it properly. Please try rephrasing your question."

/-- User-facing string produced by `handleMCPRequest`'s `catch` from the
caught error message. -/
def mcpIssueMessage (e : String) : String :=
  "I encountered an issue accessing Cloudflare documentation: " ++ e ++
    ". Please try again or disable MCP search for a general response."

/-- External behavior of one MCP exchange: the randomness for a possible
session initialization, the HTTP status of the `POST /sse/message` submit,
and the outcome of the raced SSE read (`Except.error` for a failed SSE
connection, an unparsable stream that runs into the 30s timeout, or the
timeout itself; `Except.ok t` for a received result whose extracted
`result?.content?.[0]?.text` is `t`, `none` when the field is absent). -/
structure MCPEnv where
  gen : Except String (List Nat)
  submitStatus : Nat
  sseResult : Except String (Option String)

/-- The `try` body of `handleMCPRequest` after the session-ensure step,
with the session token it runs under: throw if the token is still falsy,
throw if the submit was not acknowledged with 202, fail with the SSE
error if the raced read failed, extract the retrieved text (absent
becomes `""`), throw `MCP returned empty search results` when it is falsy
or shorter than 10 characters, and otherwise synthesize through the
inference backend `ai`. -/
def handleMCPRequestCore (ai : String → List (String × String) → Except String String)
    (env : MCPEnv) (mcpSessionId : Option String) (userQuery selectedModel : String) :
    Except String String :=
  if truthy mcpSessionId = false then
    .error "Could not establish MCP session"
  else if env.submitStatus != 202 then
    .error ("MCP request failed: " ++ toString env.submitStatus)
  else
    match env.sseResult with
    | .error e => .error e
    | .ok textOpt =>
      let searchResults := textOpt.getD ""
      if searchResults == "" || searchResults.length < 10 then
        .error "MCP returned empty search results"
      else
        match ai selectedModel [("system", synthSystem searchResults), ("user", userQuery)] with
        | .error e => .error e
        | .ok resp => .ok (if resp == "" then mcpDefaultSynthReply else resp)

/-- Embedding of `handleMCPRequest(userQuery, selectedModel)`: ensure a
session token, run the exchange, and catch any thrown error into the
user-facing issue string.  Returns the new `mcpSessionId`, the broadcast
events of a session initialization performed on the way, and the returned
text; there is no error outcome, mirroring the source's all-enclosing
`try`/`catch`. -/
def handleMCPRequest (ai : String → List (String × String) → Except String String)
    (env : MCPEnv) (mcpSessionId : Option String) (userQuery selectedModel : String) :
    Option String × List Message × String :=
  let ensured := ensureSession env.gen mcpSessionId
  match handleMCPRequestCore ai env ensured.1 userQuery selectedModel with
  | .ok s => (ensured.1, ensured.2, s)
  | .error e => (ensured.1, ensured.2, mcpIssueMessage e)

/-- Fixed reply used when the plain inference call returns no usable text. -/
def defaultAssistantReply : String := "I\x27m here to help with your questions!"

/-- The fallback assistant content built by `handleMessage`'s `catch`
around the template literal embedding the original user content. -/
def fallbackContent (c : String) : String :=
  "Thanks for your question: \"" ++ c ++
    "\". This is the SE Onboarding Lab showcasing Cloudflare Workers, AI, and Durable Objects. (AI model temporarily unavailable)"

/-- The external collaborators of `handleMessage`: the inference backend
`env.AI.run` (modelled as model id and `{role, content}` history to
`Except` of the `response` field with absent embedded as `""`), the MCP
exchange, and the `crypto.randomUUID()` used for the assistant message. -/
structure AIEnv where
  aiRun : String → List (String × String) → Except String String
  mcp : MCPEnv
  freshId : String

/-- The message of the exception escaping `handleMessage` when
`JSON.parse` throws on an unparsable inbound payload. -/
def jsonParseError : String := "Unexpected token in JSON"

/-- Result of one `handleMessage` run: the room state and sends after the
handler returns or throws, and the error escaping the handler, if any
(effects performed before a throw are kept, as in the imperative source). -/
structure HMResult where
  state : RoomState
  sent : List (Conn × String)
  thrown : Option String
deriving DecidableEq, Repr

/-- Embedding of `handleMessage(webSocket, message)`.  The inbound payload
is given as its parse outcome: `none` when `JSON.parse` throws (the throw
is uncaught and escapes the handler), `some parsed` otherwise.  Only `add`
events are acted on: the message is upserted and broadcast, and for a
user-role message the responder (MCP or plain inference) is invoked under
the source's `try`/`catch`. -/
def handleMessage (env : AIEnv) (openQ : Conn → Bool) (st : RoomState)
    (webSocket : Conn) (raw : Option Message) : HMResult :=
  match raw with
  | none => ⟨st, [], some jsonParseError⟩
  | some parsed =>
    match parsed with
    | .add id content user role model useMCP =>
      let userMsg : ChatMessage := ⟨id, content, user, role⟩
      let msgs1 := saveMessage st.messages userMsg
      let out1 := broadcastMessage openQ st.sessions parsed none
      if role == "user" then
        let selectedModel := model.getD defaultModel
        if useMCP then
          let r := handleMCPRequest env.aiRun env.mcp st.mcpSessionId content selectedModel
          let initOuts := r.2.1.flatMap (fun e => broadcastMessage openQ st.sessions e none)
          let aiMessage : ChatMessage := ⟨env.freshId, r.2.2, "CF Helper", "assistant"⟩
          let msgs2 := saveMessage msgs1 aiMessage
          let out2 := broadcastMessage openQ st.sessions
            (.add aiMessage.id aiMessage.content aiMessage.user aiMessage.role none false) none
          ⟨⟨msgs2, r.1, st.sessions⟩, out1 ++ initOuts ++ out2, none⟩
        else
          let conversationHistory :=
            (msgs1.filter (fun m => m.role == "user" || m.role == "assistant")).map
              (fun m => (m.role, m.content))
          match env.aiRun selectedModel conversationHistory with
          | .ok r =>
            let aiResponseContent := if r == "" then defaultAssistantReply else r
            let aiMessage : ChatMessage :=
              ⟨env.freshId, aiResponseContent, "SE Onboarding Assistant", "assistant"⟩
            let msgs2 := saveMessage msgs1 aiMessage
            let out2 := broadcastMessage openQ st.sessions
              (.add aiMessage.id aiMessage.content aiMessage.user aiMessage.role none false) none
            ⟨⟨msgs2, st.mcpSessionId, st.sessions⟩, out1 ++ out2, none⟩
          | .error _e =>
            let errorMessage : ChatMessage :=
              ⟨env.freshId, fallbackContent content, "SE Onboarding Assistant", "assistant"⟩
            let msgs2 := saveMessage msgs1 errorMessage
            let out2 := broadcastMessage openQ st.sessions
              (.add errorMessage.id errorMessage.content errorMessage.user errorMessage.role none false) none
            ⟨⟨msgs2, st.mcpSessionId, st.sessions⟩, out1 ++ out2, none⟩
      else
        ⟨⟨msgs1, st.mcpSessionId, st.sessions⟩, out1, none⟩
    | _ => ⟨st, [], none⟩

/-! ### Substring machinery for the containment claims -/

/-- Boolean test that `n` is a prefix of the second character list. -/
def isPre : List Char → List Char → Bool
  | [], _ => true
  | _ :: _, [] => false
  | a :: as, b :: bs => a == b && isPre as bs

/-- Boolean test that `needle` occurs contiguously in the second list. -/
def hasSub (needle : List Char) : List Char → Bool
  | [] => isPre needle []
  | c :: t => isPre needle (c :: t) || hasSub needle t

/-- Boolean test that `needle` occurs contiguously in `hay`. -/
def containsStr (hay needle : String) : Bool :=
  hasSub needle.data hay.data

lemma isPre_append_self (n post : List Char) : isPre n (n ++ post) = true := by
  induction n with
  | nil => rfl
  | cons a as ih => simp [isPre, ih]

lemma hasSub_of_split (pre n post : List Char) : hasSub n (pre ++ n ++ post) = true := by
  induction pre with
  | nil =>
    cases n with
    | nil =>
      cases post with
      | nil => rfl
      | cons c t => simp [hasSub, isPre]
    | cons a as =>
      simp only [hasSub, List.cons_append, Bool.or_eq_true]
      exact Or.inl (by simpa using isPre_append_self (a :: as) post)
  | cons c t ih =>
    simp only [hasSub, List.cons_append, Bool.or_eq_true]
    exact Or.inr (by simpa [List.append_assoc] using ih)

lemma containsStr_of_data (hay needle : String) (pre post : List Char)
    (h : hay.data = pre ++ needle.data ++ post) : containsStr hay needle = true := by
  rw [containsStr, h]
  exact hasSub_of_split pre needle.data post

/-! ### C1 — broadcast and the ignored exclusion -/

/-- C1 counterexample: with connections `0` and `1` both registered and
open, a broadcast that excludes connection `0` still delivers the payload
to connection `0`.  The source's `broadcastMessage` never reads its
`sender` parameter, so the claimed skipping of `excludeConnection` does not
happen. -/
theorem c1_counterexample :
    (0, serializeMessage .session_loading) ∈
      broadcastMessage (fun _ => true) [(0, "t0"), (1, "t1")] .session_loading (some 0) := by
  decide

/-- C1 (amended): broadcast delivers the one serialized payload to exactly
the registered connections whose transport state is open, regardless of the
supplied exclusion — the `sender` argument is ignored, so with or without
an exclusion every open registered connection, including the original
sender, receives the serialized event. -/
theorem c1_amended (openQ : Conn → Bool) (sessions : List (Conn × String))
    (ev : Message) (sender : Option Conn) (c : Conn) (s : String) :
    ((c, s) ∈ broadcastMessage openQ sessions ev sender ↔
      (openQ c = true ∧ (∃ t, (c, t) ∈ sessions) ∧ s = serializeMessage ev)) ∧
    broadcastMessage openQ sessions ev sender = broadcastMessage openQ sessions ev none := by
  refine ⟨?_, rfl⟩
  constructor
  · intro h
    simp only [broadcastMessage, List.mem_map, List.mem_filter] at h
    obtain ⟨⟨c', t⟩, ⟨hmem, hopen⟩, heq⟩ := h
    obtain ⟨h1, h2⟩ := Prod.mk.injEq .. ▸ heq
    subst h1
    exact ⟨hopen, ⟨t, hmem⟩, h2.symm⟩
  · rintro ⟨hopen, ⟨t, hmem⟩, rfl⟩
    simp only [broadcastMessage, List.mem_map, List.mem_filter]
    exact ⟨(c, t), ⟨hmem, hopen⟩, rfl⟩

/-! ### C2 — malformed inbound payload -/

/-- C2 counterexample: an unparsable inbound payload is not dropped inside
the handler — `JSON.parse` throws and the exception escapes `handleMessage`
uncaught (the `thrown` field is set), contradicting the claim that the
handler drops the event without crashing.  Room state and registry are
nevertheless untouched. -/
theorem c2_counterexample :
    handleMessage ⟨fun _ _ => .ok "r", ⟨.ok [], 202, .ok none⟩, "fid"⟩ (fun _ => true)
      ⟨[], none, [(0, "t")]⟩ 0 none =
      ⟨⟨[], none, [(0, "t")]⟩, [], some jsonParseError⟩ := rfl

/-- C2 (amended): for every inbound payload that fails to parse, the
handler mutates no room state (Message Log, session token and Connection
Registry are unchanged), sends nothing, and neither closes nor unregisters
the connection (the handler has no close or unregister effect at all) —
but the parse failure is not caught: it propagates out of the message
handler as an uncaught exception instead of being dropped inside it. -/
theorem c2_amended (env : AIEnv) (openQ : Conn → Bool) (st : RoomState) (ws : Conn) :
    handleMessage env openQ st ws none = ⟨st, [], some jsonParseError⟩ := rfl

/-! ### C3 — Message Log upsert -/

lemma foldl_saveMessage_disjoint (calls : List ChatMessage) :
    ∀ acc : List ChatMessage, (∀ a ∈ acc, ∀ b ∈ calls, a.id ≠ b.id) →
      calls.Pairwise (fun a b => a.id ≠ b.id) →
      List.foldl saveMessage acc calls = acc ++ calls := by
  induction calls with
  | nil => intro acc _ _; simp
  | cons c cs ih =>
    intro acc hdisj hpw
    have hfind : acc.find? (fun old => old.id == c.id) = none := by
      apply List.find?_eq_none.mpr
      intro a ha
      simp only [beq_iff_eq]
      exact hdisj a ha c (List.mem_cons_self c cs)
    have hsave : saveMessage acc c = acc ++ [c] := by
      simp [saveMessage, hfind]
    have hpw' := List.pairwise_cons.mp hpw
    have hstep : List.foldl saveMessage (acc ++ [c]) cs = (acc ++ [c]) ++ cs := by
      apply ih
      · intro a ha b hb
        rcases List.mem_append.mp ha with h | h
        · exact hdisj a h b (List.mem_cons_of_mem c hb)
        · have : a = c := by simpa using h
          subst this
          exact hpw'.1 b hb
      · exact hpw'.2
    calc List.foldl saveMessage acc (c :: cs)
        = List.foldl saveMessage (saveMessage acc c) cs := rfl
      _ = List.foldl saveMessage (acc ++ [c]) cs := by rw [hsave]
      _ = (acc ++ [c]) ++ cs := hstep
      _ = acc ++ c :: cs := by simp

/-- C3: an upsert whose identifier already occurs in the Message Log keeps
the log length and rewrites each position in place (position `i` still
holds the message that was at position `i`, with the matching identifier's
entry replaced by the new content); an upsert with a fresh identifier
appends; and a sequence of upserts with pairwise distinct identifiers
starting from the empty log yields exactly those messages in call order. -/
theorem c3_upsert :
    (∀ (messages : List ChatMessage) (m : ChatMessage),
      ((messages.find? (fun old => old.id == m.id)).isSome = true →
        (saveMessage messages m).length = messages.length ∧
        ∀ i : Nat, (saveMessage messages m)[i]? =
          (messages[i]?).map (fun old => if old.id == m.id then m else old)) ∧
      (messages.find? (fun old => old.id == m.id) = none →
        saveMessage messages m = messages ++ [m])) ∧
    (∀ calls : List ChatMessage, calls.Pairwise (fun a b => a.id ≠ b.id) →
      List.foldl saveMessage [] calls = calls) := by
  constructor
  · intro messages m
    constructor
    · intro h
      obtain ⟨a, ha⟩ := Option.isSome_iff_exists.mp h
      rw [saveMessage, ha]
      exact ⟨List.length_map _ _, fun i => List.getElem?_map _ _ _⟩
    · intro h
      rw [saveMessage, h]
  · intro calls hpw
    simpa using foldl_saveMessage_disjoint calls [] (by simp) hpw

/-- Witness for `c3_upsert`: a duplicate-identifier upsert leaves the
length and position, a fresh-identifier upsert appends, and two
distinct-identifier upserts from the empty log land in call order. -/
theorem c3_upsert_witness :
    (saveMessage [⟨"m1", "a", "u", "user"⟩] ⟨"m1", "b", "u", "user"⟩).length = 1 ∧
    (saveMessage [⟨"m1", "a", "u", "user"⟩] ⟨"m1", "b", "u", "user"⟩)[0]? =
      ((([⟨"m1", "a", "u", "user"⟩] : List ChatMessage))[0]?).map
        (fun old => if old.id == (⟨"m1", "b", "u", "user"⟩ : ChatMessage).id
          then (⟨"m1", "b", "u", "user"⟩ : ChatMessage) else old) ∧
    saveMessage [⟨"m1", "a", "u", "user"⟩] ⟨"m2", "c", "u", "user"⟩ =
      [⟨"m1", "a", "u", "user"⟩, ⟨"m2", "c", "u", "user"⟩] ∧
    List.foldl saveMessage []
        [(⟨"m1", "a", "u", "user"⟩ : ChatMessage), ⟨"m2", "c", "u", "user"⟩] =
      [⟨"m1", "a", "u", "user"⟩, ⟨"m2", "c", "u", "user"⟩] := by
  refine ⟨((c3_upsert.1 _ _).1 (by decide)).1, ((c3_upsert.1 _ _).1 (by decide)).2 0,
    (c3_upsert.1 _ _).2 (by decide), c3_upsert.2 _ ?_⟩
  simp [List.pairwise_cons]

/-! ### C10 — non-add events are a no-op -/

/-- C10: a successfully parsed inbound event of any non-`add` type
(`update`, `all`, `session_loading`, `session_ready`, `session_failed`)
leaves the Message Log, the session token and the Connection Registry
unchanged, sends and broadcasts nothing, and raises no exception. -/
theorem c10_non_add_noop (env : AIEnv) (openQ : Conn → Bool) (st : RoomState) (ws : Conn) :
    (∀ i c u r mo b, handleMessage env openQ st ws (some (.update i c u r mo b)) = ⟨st, [], none⟩) ∧
    (∀ msgs, handleMessage env openQ st ws (some (.all msgs)) = ⟨st, [], none⟩) ∧
    handleMessage env openQ st ws (some .session_loading) = ⟨st, [], none⟩ ∧
    (∀ s, handleMessage env openQ st ws (some (.session_ready s)) = ⟨st, [], none⟩) ∧
    (∀ e, handleMessage env openQ st ws (some (.session_failed e)) = ⟨st, [], none⟩) :=
  ⟨fun _ _ _ _ _ _ => rfl, fun _ => rfl, rfl, fun _ => rfl, fun _ => rfl⟩

/-! ### C5 — a failing send aborts the broadcast loop -/

lemma sendLoop_ok (openQ sendOk : Conn → Bool) (payload : String) :
    ∀ l : List (Conn × String), (∀ p ∈ l, openQ p.1 = true → sendOk p.1 = true) →
      sendLoop openQ sendOk payload l =
        ((l.filter (fun p => openQ p.1)).map (fun p => (p.1, payload)), none) := by
  intro l
  induction l with
  | nil => intro _; rfl
  | cons p rest ih =>
    intro h
    have hrest := ih (fun q hq => h q (List.mem_cons_of_mem _ hq))
    by_cases hop : openQ p.1 = true
    · have hsend : sendOk p.1 = true := h p (List.mem_cons_self _ _) hop
      simp [sendLoop, hop, hsend, hrest, List.filter_cons]
    · simp [sendLoop, hop, hrest, List.filter_cons]

lemma sendLoop_fail (openQ sendOk : Conn → Bool) (payload : String) :
    ∀ (pre : List (Conn × String)) (c : Conn) (t : String) (post : List (Conn × String)),
      openQ c = true → sendOk c = false →
      (∀ p ∈ pre, openQ p.1 = true → sendOk p.1 = true) →
      sendLoop openQ sendOk payload (pre ++ (c, t) :: post) =
        ((pre.filter (fun p => openQ p.1)).map (fun p => (p.1, payload)),
          some "send failed") := by
  intro pre
  induction pre with
  | nil =>
    intro c t post hop hsend _
    simp [sendLoop, hop, hsend]
  | cons p rest ih =>
    intro c t post hop hsend h
    have hrest := ih c t post hop hsend (fun q hq => h q (List.mem_cons_of_mem _ hq))
    by_cases hp : openQ p.1 = true
    · have hps : sendOk p.1 = true := h p (List.mem_cons_self _ _) hp
      simp [sendLoop, hp, hps, hrest, List.filter_cons]
    · simp [sendLoop, hp, hrest, List.filter_cons]

/-- C5 counterexample: with connections `0` and `1` both registered and
open and the transport send to `0` throwing, the broadcast delivers to
nobody — the failure is not swallowed inside the loop (it escapes as
`some "send failed"`) and delivery to the remaining connection `1` is
aborted, refuting the claim. -/
theorem c5_counterexample :
    broadcastMessageF (fun _ => true) (fun c => c != 0) [(0, "t0"), (1, "t1")]
      .session_loading = ([], some "send failed") := by
  decide

/-- C5 (amended): the broadcast loop performs no error handling.  When
every send to an open registered connection succeeds, all of them receive
the serialized payload and no error surfaces; but when the send to some
open connection fails, the loop stops there — only the open connections
strictly before the failing one have been delivered, the connections after
it are never attempted, and the failure escapes to the caller. -/
theorem c5_amended (openQ sendOk : Conn → Bool) (sessions : List (Conn × String))
    (ev : Message) :
    ((∀ p ∈ sessions, openQ p.1 = true → sendOk p.1 = true) →
      broadcastMessageF openQ sendOk sessions ev =
        ((sessions.filter (fun p => openQ p.1)).map (fun p => (p.1, serializeMessage ev)),
          none)) ∧
    (∀ (pre : List (Conn × String)) (c : Conn) (t : String) (post : List (Conn × String)),
      sessions = pre ++ (c, t) :: post → openQ c = true → sendOk c = false →
      (∀ p ∈ pre, openQ p.1 = true → sendOk p.1 = true) →
      broadcastMessageF openQ sendOk sessions ev =
        ((pre.filter (fun p => openQ p.1)).map (fun p => (p.1, serializeMessage ev)),
          some "send failed")) := by
  constructor
  · intro h
    exact sendLoop_ok openQ sendOk (serializeMessage ev) sessions h
  · intro pre c t post hs hop hsend h
    subst hs
    exact sendLoop_fail openQ sendOk (serializeMessage ev) pre c t post hop hsend h

/-- Witness for `c5_amended`: an all-successful broadcast delivers to the
open connection, and a broadcast whose first send fails surfaces the
error with nothing delivered. -/
theorem c5_amended_witness :
    broadcastMessageF (fun _ => true) (fun _ => true) [(0, "t0")] .session_loading =
      ([(0, serializeMessage .session_loading)], none) ∧
    broadcastMessageF (fun _ => true) (fun c => c != 1) [(1, "t1"), (0, "t0")]
      .session_loading = ([], some "send failed") := by
  constructor
  · exact ((c5_amended (fun _ => true) (fun _ => true) [(0, "t0")] .session_loading).1
      (by intro p _ _; rfl)).trans (by decide)
  · exact ((c5_amended (fun _ => true) (fun c => c != 1) [(1, "t1"), (0, "t0")]
      .session_loading).2 [] 1 "t1" [(0, "t0")] rfl rfl rfl (by simp)).trans (by decide)

/-! ### C9 — exactly one session outcome per initialization attempt -/

/-- Whether an event is a `session_ready` or `session_failed` outcome. -/
def isSessionOutcome : Message → Bool
  | .session_ready _ => true
  | .session_failed _ => true
  | _ => false

/-- C9: every run of the session initialization broadcasts exactly one
outcome event — one `session_ready` or one `session_failed`, never both
and never neither — and the outcome is preceded by a `session_loading`
broadcast; a successful randomness call yields `session_ready` with the
generated token, a throwing one yields `session_failed` with the error. -/
theorem c9_one_outcome (gen : Except String (List Nat)) :
    (initializeMCPSession gen).2.countP isSessionOutcome = 1 ∧
    (initializeMCPSession gen).2.head? = some .session_loading ∧
    (∀ bytes, gen = .ok bytes →
      (initializeMCPSession gen).2 =
        [.session_loading, .session_ready (genSessionId bytes)]) ∧
    (∀ e, gen = .error e →
      (initializeMCPSession gen).2 = [.session_loading, .session_failed e]) := by
  cases gen with
  | ok bytes =>
    refine ⟨by simp [initializeMCPSession, List.countP_cons, List.countP_nil, isSessionOutcome],
      rfl, fun b hb => ?_, fun e he => Except.noConfusion he⟩
    injection hb with h
    subst h
    rfl
  | error e =>
    refine ⟨by simp [initializeMCPSession, List.countP_cons, List.countP_nil, isSessionOutcome],
      rfl, fun b hb => Except.noConfusion hb, fun e' he => ?_⟩
    injection he with h
    subst h
    rfl

/-- Witness for `c9_one_outcome` at concrete inputs: a failing
initialization attempt broadcasts `session_loading` then exactly the one
`session_failed` outcome. -/
theorem c9_one_outcome_witness :
    (initializeMCPSession (Except.error "x")).2 =
      [.session_loading, .session_failed "x"] ∧
    (initializeMCPSession (Except.ok (List.replicate 32 0))).2.countP isSessionOutcome = 1 :=
  ⟨(c9_one_outcome (Except.error "x")).2.2.2 "x" rfl,
    (c9_one_outcome (Except.ok (List.replicate 32 0))).1⟩

/-! ### C6 — the EmptyRetrieval decision -/

/-- C6: with an established session and an acknowledged submit, the
retrieval-augmented flow fails with the EmptyRetrieval error exactly when
the text extracted from the RPC result (absent extracted as the empty
string) is shorter than 10 characters, i.e. exactly when the retrieved
text is absent, the empty string, or shorter than 10 characters; when the
text is long enough it proceeds to the synthesis call and returns its
response.  (The synthesis backend is assumed not to throw the retrieval
flow's own empty-result message, which distinguishes the two failure
sources in this string-typed error model.) -/
theorem c6_empty_retrieval (ai : String → List (String × String) → Except String String)
    (gen : Except String (List Nat)) (textOpt : Option String) (q m sid : String)
    (hsid : sid ≠ "")
    (hai : ∀ hist, ai m hist ≠ Except.error "MCP returned empty search results") :
    (handleMCPRequestCore ai ⟨gen, 202, .ok textOpt⟩ (some sid) q m =
        .error "MCP returned empty search results" ↔
      (textOpt.getD "").length < 10) ∧
    ((textOpt.getD "").length < 10 ↔
      (textOpt = none ∨ textOpt = some "" ∨ ∃ t, textOpt = some t ∧ t.length < 10)) ∧
    (∀ t r, textOpt = some t → 10 ≤ t.length →
      ai m [("system", synthSystem t), ("user", q)] = .ok r →
      handleMCPRequestCore ai ⟨gen, 202, .ok textOpt⟩ (some sid) q m =
        .ok (if r == "" then mcpDefaultSynthReply else r)) := by
  have htr : truthy (some sid) = true := by
    simp [truthy, hsid]
  have hcore : handleMCPRequestCore ai ⟨gen, 202, .ok textOpt⟩ (some sid) q m =
      (if (textOpt.getD "") == "" || (textOpt.getD "").length < 10 then
        Except.error "MCP returned empty search results"
      else
        match ai m [("system", synthSystem (textOpt.getD "")), ("user", q)] with
        | .error e => .error e
        | .ok resp => .ok (if resp == "" then mcpDefaultSynthReply else resp)) := by
    simp [handleMCPRequestCore, htr]
  refine ⟨?_, ?_, ?_⟩
  · rw [hcore]
    by_cases hlt : (textOpt.getD "").length < 10
    · have hc : ((textOpt.getD "") == "" || decide ((textOpt.getD "").length < 10)) = true := by
        simp [hlt]
      simp [hc, hlt]
    · have hne : ((textOpt.getD "") == "") = false := by
        simp only [beq_eq_false_iff_ne, ne_eq]
        intro h0
        exact hlt (by simp [h0])
      have hc : ((textOpt.getD "") == "" || decide ((textOpt.getD "").length < 10)) = false := by
        simp [hne, hlt]
      rw [if_neg (by simp [hc])]
      cases hcall : ai m [("system", synthSystem (textOpt.getD "")), ("user", q)] with
      | error e =>
        simp only [hlt, iff_false]
        intro hcontra
        injection hcontra with h
        exact hai _ (h ▸ hcall)
      | ok resp => simp [hlt]
  · cases textOpt with
    | none => simp
    | some t =>
      simp only [Option.getD_some, Option.some.injEq]
      constructor
      · intro h
        exact Or.inr (Or.inr ⟨t, rfl, h⟩)
      · rintro (h | h | ⟨t', rfl, h⟩)
        · cases h
        · subst h; simp
        · exact h
  · intro t r ht hlen hcall
    subst ht
    rw [hcore]
    have hne : (t == "") = false := by
      simp only [beq_eq_false_iff_ne, ne_eq]
      intro h0
      subst h0
      exact absurd hlen (by decide)
    have hc : ((t : String) == "" || decide (t.length < 10)) = false := by
      simp [hne]
      omega
    simp only [Option.getD_some]
    rw [if_neg (by simp [hc]), hcall]

/-- Witness for `c6_empty_retrieval`: a 5-character retrieval result is
rejected as empty, and a 12-character one reaches synthesis and returns
the backend's answer. -/
theorem c6_empty_retrieval_witness :
    (handleMCPRequestCore (fun _ _ => Except.ok "ANSWER") ⟨Except.ok [], 202, .ok (some "short")⟩
        (some "s") "q" "m" = Except.error "MCP returned empty search results") ∧
    (handleMCPRequestCore (fun _ _ => Except.ok "ANSWER") ⟨Except.ok [], 202, .ok (some "0123456789ab")⟩
        (some "s") "q" "m" = Except.ok "ANSWER") := by
  constructor
  · exact (c6_empty_retrieval (fun _ _ => Except.ok "ANSWER") (Except.ok []) (some "short")
      "q" "m" "s" (by decide) (fun hist h => Except.noConfusion h)).1.mpr (by decide)
  · exact ((c6_empty_retrieval (fun _ _ => Except.ok "ANSWER") (Except.ok []) (some "0123456789ab")
      "q" "m" "s" (by decide) (fun hist h => Except.noConfusion h)).2.2 "0123456789ab" "ANSWER"
      rfl (by decide) rfl).trans rfl

/-! ### C7 — the retrieval responder catches every failure -/

/-- C7: the retrieval-augmented responder never propagates an error to its
caller — its result type has no failure outcome, mirroring the source's
all-enclosing try/catch — and whenever any step of the flow (session
establishment, submission acknowledgment, the streaming read with its
timeout, the empty-retrieval check, or synthesis) throws some error `e`,
the returned text is the user-facing issue string, which names the failure
(contains `e` verbatim) and suggests disabling augmentation (contains
"disable MCP search"); a successful flow returns the synthesized text
unchanged. -/
theorem c7_rar_catches (ai : String → List (String × String) → Except String String)
    (env : MCPEnv) (msid : Option String) (q m : String) :
    (∀ e, handleMCPRequestCore ai env (ensureSession env.gen msid).1 q m = Except.error e →
      (handleMCPRequest ai env msid q m).2.2 = mcpIssueMessage e ∧
      containsStr (mcpIssueMessage e) e = true ∧
      containsStr (mcpIssueMessage e) "disable MCP search" = true) ∧
    (∀ s, handleMCPRequestCore ai env (ensureSession env.gen msid).1 q m = Except.ok s →
      (handleMCPRequest ai env msid q m).2.2 = s) := by
  constructor
  · intro e h
    refine ⟨?_, ?_, ?_⟩
    · simp [handleMCPRequest, h]
    · exact containsStr_of_data _ _
        ("I encountered an issue accessing Cloudflare documentation: ".data)
        (". Please try again or disable MCP search for a general response.".data)
        (by simp [mcpIssueMessage])
    · apply containsStr_of_data _ _
        ("I encountered an issue accessing Cloudflare documentation: ".data ++ e.data ++
          ". Please try again or ".data)
        (" for a general response.".data)
      have hsplit : (". Please try again or disable MCP search for a general response." : String).data =
          ". Please try again or ".data ++ "disable MCP search".data ++ " for a general response.".data := by
        decide
      simp [mcpIssueMessage, hsplit]
  · intro s h
    simp [handleMCPRequest, h]

/-- Witness for `c7_rar_catches`: a submit rejected with HTTP 500 is
caught and converted to the issue string naming the failure. -/
theorem c7_rar_catches_witness :
    (handleMCPRequest (fun _ _ => Except.ok "x") ⟨Except.ok [], 500, .ok none⟩ (some "s")
        "q" "m").2.2 = mcpIssueMessage "MCP request failed: 500" ∧
    containsStr (mcpIssueMessage "MCP request failed: 500") "MCP request failed: 500" = true ∧
    containsStr (mcpIssueMessage "MCP request failed: 500") "disable MCP search" = true :=
  (c7_rar_catches (fun _ _ => Except.ok "x") ⟨Except.ok [], 500, .ok none⟩ (some "s") "q" "m").1
    "MCP request failed: 500" rfl

/-! ### C4 — fallback on inference failure -/

lemma fallback_contains_content (c : String) : containsStr (fallbackContent c) c = true := by
  apply containsStr_of_data _ _ ("Thanks for your question: \"".data)
    ("\". This is the SE Onboarding Lab showcasing Cloudflare Workers, AI, and Durable Objects. (AI model temporarily unavailable)".data)
  simp [fallbackContent]

lemma fallback_contains_unavailable (c : String) :
    containsStr (fallbackContent c) "unavailable" = true := by
  apply containsStr_of_data _ _
    ("Thanks for your question: \"".data ++ c.data ++
      "\". This is the SE Onboarding Lab showcasing Cloudflare Workers, AI, and Durable Objects. (AI model temporarily ".data)
    (")".data)
  have hsplit : ("\". This is the SE Onboarding Lab showcasing Cloudflare Workers, AI, and Durable Objects. (AI model temporarily unavailable)" : String).data =
      "\". This is the SE Onboarding Lab showcasing Cloudflare Workers, AI, and Durable Objects. (AI model temporarily ".data ++
        "unavailable".data ++ ")".data := by
    decide
  simp [fallbackContent, hsplit, List.append_assoc]

set_option maxRecDepth 8192 in
/-- C4 counterexample: a user-role `add` event with retrieval augmentation
enabled, where retrieval succeeds but the inference backend's synthesis
call throws ("boom" — the oracle `fun _ _ => Except.error "boom"` throws on
every call).  The error is caught inside the retrieval responder, not at
the dispatch boundary, and the broadcast assistant message is the
documentation-issue string, whose content contains neither the literal
original user content ("HELLOQ") nor an "unavailable" marker — refuting
the claim's universal statement over all user-role add events. -/
theorem c4_counterexample :
    handleMessage ⟨fun _ _ => Except.error "boom", ⟨Except.ok [], 202, Except.ok (some "0123456789docs")⟩, "fid"⟩
        (fun _ => true) ⟨[], some "sess", [(0, "tok")]⟩ 0
        (some (.add "m1" "HELLOQ" "alice" "user" none true)) =
      ⟨⟨[⟨"m1", "HELLOQ", "alice", "user"⟩,
          ⟨"fid", mcpIssueMessage "boom", "CF Helper", "assistant"⟩],
        some "sess", [(0, "tok")]⟩,
       [(0, serializeMessage (.add "m1" "HELLOQ" "alice" "user" none true)),
        (0, serializeMessage (.add "fid" (mcpIssueMessage "boom") "CF Helper" "assistant" none false))],
       none⟩ ∧
    containsStr (mcpIssueMessage "boom") "HELLOQ" = false ∧
    containsStr (mcpIssueMessage "boom") "unavailable" = false := by
  refine ⟨?_, by decide, by decide⟩
  decide

/-- C4 (amended): for every user-role `add` event with retrieval
augmentation disabled, if the inference backend call throws, the
controller catches the error at the dispatch boundary and upserts and
broadcasts an assistant message whose content contains the literal
original user content and an "unavailable" marker; the handler raises no
exception, so none reaches the client connection.  (With augmentation
enabled the failure is instead caught inside the retrieval responder and
produces its documentation-issue fallback, which lacks these markers —
see the counterexample.) -/
theorem c4_amended (env : AIEnv) (openQ : Conn → Bool) (st : RoomState) (ws : Conn)
    (i c u : String) (mo : Option String) (e : String)
    (hai : ∀ mm hist, env.aiRun mm hist = Except.error e) :
    handleMessage env openQ st ws (some (.add i c u "user" mo false)) =
      ⟨⟨saveMessage (saveMessage st.messages ⟨i, c, u, "user"⟩)
          ⟨env.freshId, fallbackContent c, "SE Onboarding Assistant", "assistant"⟩,
        st.mcpSessionId, st.sessions⟩,
       broadcastMessage openQ st.sessions (.add i c u "user" mo false) none ++
         broadcastMessage openQ st.sessions
           (.add env.freshId (fallbackContent c) "SE Onboarding Assistant" "assistant" none false)
           none,
       none⟩ ∧
    containsStr (fallbackContent c) c = true ∧
    containsStr (fallbackContent c) "unavailable" = true := by
  refine ⟨?_, fallback_contains_content c, fallback_contains_unavailable c⟩
  simp [handleMessage, hai]

/-- Witness for `c4_amended`: a concrete user message "hello" with a
throwing backend produces the fallback assistant message. -/
theorem c4_amended_witness :
    handleMessage ⟨fun _ _ => Except.error "boom", ⟨Except.ok [], 202, Except.ok none⟩, "fid"⟩
        (fun _ => true) ⟨[], none, []⟩ 0 (some (.add "m1" "hello" "alice" "user" none false)) =
      ⟨⟨saveMessage (saveMessage [] ⟨"m1", "hello", "alice", "user"⟩)
          ⟨"fid", fallbackContent "hello", "SE Onboarding Assistant", "assistant"⟩,
        none, []⟩,
       broadcastMessage (fun _ => true) [] (.add "m1" "hello" "alice" "user" none false) none ++
         broadcastMessage (fun _ => true) []
           (.add "fid" (fallbackContent "hello") "SE Onboarding Assistant" "assistant" none false)
           none,
       none⟩ ∧
    containsStr (fallbackContent "hello") "hello" = true ∧
    containsStr (fallbackContent "hello") "unavailable" = true :=
  c4_amended ⟨fun _ _ => Except.error "boom", ⟨Except.ok [], 202, Except.ok none⟩, "fid"⟩
    (fun _ => true) ⟨[], none, []⟩ 0 "m1" "hello" "alice" none "boom" (fun _ _ => rfl)

/-! ### C8 — the first-connection trace -/

/-- Lowercase hexadecimal characters. -/
def isHexChar (c : Char) : Bool :=
  ('0' ≤ c && c ≤ '9') || ('a' ≤ c && c ≤ 'f')

lemma isHexChar_hexDigitChar (n : Nat) (h : n < 16) : isHexChar (hexDigitChar n) = true := by
  interval_cases n <;> decide

lemma toHexByte_hex (b : Nat) : ∀ c ∈ toHexByte b, isHexChar c = true := by
  intro c hc
  simp only [toHexByte, List.mem_cons, List.not_mem_nil, or_false] at hc
  rcases hc with h | h <;> subst h
  · exact isHexChar_hexDigitChar _ (by omega)
  · exact isHexChar_hexDigitChar _ (by omega)

lemma flatten_toHexByte_length (l : List Nat) :
    ((l.map toHexByte).flatten).length = 2 * l.length := by
  induction l with
  | nil => rfl
  | cons b t ih =>
    simp only [List.map_cons, List.flatten_cons, List.length_append, ih, toHexByte]
    simp [List.length_cons]
    omega

lemma genSessionId_spec (bytes : List Nat) (h : bytes.length = 32) :
    (genSessionId bytes).length = 16 ∧ (genSessionId bytes).data.all isHexChar = true := by
  have hflat : ((bytes.map toHexByte).flatten).length = 64 := by
    rw [flatten_toHexByte_length, h]
  constructor
  · show (((bytes.map toHexByte).flatten).take 16).length = 16
    rw [List.length_take, hflat]
    decide
  · rw [List.all_eq_true]
    intro c hc
    have hc' : c ∈ (bytes.map toHexByte).flatten := List.mem_of_mem_take hc
    obtain ⟨piece, hpiece, hcp⟩ := List.mem_flatten.mp hc'
    obtain ⟨b, _, rfl⟩ := List.mem_map.mp hpiece
    exact toHexByte_hex b c hcp

/-- C8: the first client connecting to an uninitialized room receives, in
order, an `all` event carrying the empty message list, then a
`session_loading` event, then a `session_ready` event whose token is a
16-character lowercase-hexadecimal string (the `session_ready` is then
repeated once, because the per-connection status send follows the
initialization broadcast that already reached this connection). -/
theorem c8_first_connect (openQ : Conn → Bool) (ws : Conn) (token : String)
    (bytes : List Nat) (hopen : openQ ws = true) (hlen : bytes.length = 32) :
    ∃ sid,
      handleSession openQ ⟨[], none, []⟩ ws token (Except.ok bytes) =
        (⟨[], some sid, [(ws, token)]⟩,
          [(ws, serializeMessage (.all [])),
           (ws, serializeMessage .session_loading),
           (ws, serializeMessage (.session_ready sid)),
           (ws, serializeMessage (.session_ready sid))]) ∧
      sid.length = 16 ∧ sid.data.all isHexChar = true := by
  refine ⟨genSessionId bytes, ?_, (genSessionId_spec bytes hlen).1,
    (genSessionId_spec bytes hlen).2⟩
  have hne : (genSessionId bytes == "") = false := by
    have h16 := (genSessionId_spec bytes hlen).1
    simp only [beq_eq_false_iff_ne, ne_eq]
    intro h0
    rw [h0] at h16
    exact absurd h16 (by decide)
  simp [handleSession, ensureSession, initializeMCPSession, truthy, broadcastMessage,
    hopen, hne]

/-- Witness for `c8_first_connect` with 32 zero bytes. -/
theorem c8_first_connect_witness :
    (List.replicate 32 (0 : Nat)).length = 32 ∧
    ∃ sid,
      handleSession (fun _ => true) ⟨[], none, []⟩ 0 "tok"
          (Except.ok (List.replicate 32 0)) =
        (⟨[], some sid, [(0, "tok")]⟩,
          [(0, serializeMessage (.all [])),
           (0, serializeMessage .session_loading),
           (0, serializeMessage (.session_ready sid)),
           (0, serializeMessage (.session_ready sid))]) ∧
      sid.length = 16 ∧ sid.data.all isHexChar = true :=
  ⟨by decide,
    c8_first_connect (fun _ => true) 0 "tok" (List.replicate 32 0) rfl (by decide)⟩

end SeOnboarding
